import Mathlib

/-!
Shallow embedding of the Spendly Django budget application
(`budget/models.py`, `budget/views.py`) for verification.

Conventions of the embedding:
* Django `DecimalField` amounts (and the Python `float`s the views derive
  from them) are modelled as `ℚ`; all the amounts the app stores are exact
  multiples of `1/100`.
* Users are identified by their username (`String`); querysets are `List`s
  of rows; `QuerySet.aggregate(Sum)` yields `none` on an empty set, which
  the views coalesce to `0` with `or Decimal('0.00')` — this is modelled
  by `aggAmount`.
* `datetime` values are modelled by their civil date: either a `Date`
  record (year/month/day fields, for `strftime`) or a day count from the
  Unix epoch (`Int`, for `timedelta` arithmetic), converted by the
  standard civil-calendar algorithms `daysFromCivil` / `civilFromDays`.
* HTTP requests are modelled by their method (`String`) plus the POSTed
  form data; `messages.*` calls and return values are modelled as fields
  of explicit result records.
-/

/-- Civil date (the date part of a Python `datetime`). -/
structure Date where
  year : Int
  month : Nat
  day : Nat
deriving DecidableEq, Repr

/-- Two-digit zero padding, as in `strftime` `%m`. -/
def pad2 (n : Nat) : String := if n < 10 then "0" ++ toString n else toString n

/-- Bucket string `YYYY-MM`, as produced by `strftime('%Y-%m')`. -/
def fmtYM (y : Int) (m : Nat) : String := toString y ++ "-" ++ pad2 m

/-- Month bucket of a date, i.e. `date.strftime('%Y-%m')`. -/
def Date.bucket (d : Date) : String := fmtYM d.year d.month

/-- Day count since 1970-01-01 of a civil date (Gregorian calendar). -/
def daysFromCivil (y m d : Int) : Int :=
  let y' := if m ≤ 2 then y - 1 else y
  let era : Int := y' / 400
  let yoe : Int := y' - era * 400
  let mp : Int := if 2 < m then m - 3 else m + 9
  let doy : Int := (153 * mp + 2) / 5 + d - 1
  let doe : Int := yoe * 365 + yoe / 4 - yoe / 100 + doy
  era * 146097 + doe - 719468

/-- Civil date (year, month, day) of a day count since 1970-01-01. -/
def civilFromDays (z : Int) : Int × Int × Int :=
  let z' := z + 719468
  let era : Int := z' / 146097
  let doe : Int := z' - era * 146097
  let yoe : Int := (doe - doe / 1460 + doe / 36524 - doe / 146096) / 365
  let y : Int := yoe + era * 400
  let doy : Int := doe - (365 * yoe + yoe / 4 - yoe / 100)
  let mp : Int := (5 * doy + 2) / 153
  let d : Int := doy - (153 * mp + 2) / 5 + 1
  let m : Int := if mp < 10 then mp + 3 else mp - 9
  (if m ≤ 2 then y + 1 else y, m, d)

/-- Bucket string of a day count: `(epoch + z days).strftime('%Y-%m')`. -/
def bucketOfDay (z : Int) : String :=
  fmtYM (civilFromDays z).1 (civilFromDays z).2.1.toNat

/-- Lexicographic code-point comparison on character lists (string `<`). -/
def strLtGo : List Char → List Char → Bool
  | [], [] => false
  | [], _ :: _ => true
  | _ :: _, [] => false
  | x :: xs, y :: ys =>
    if x.toNat < y.toNat then true
    else if y.toNat < x.toNat then false
    else strLtGo xs ys

/-- Code-point string comparison, as Python `<` on `str` and the database
collation order on ASCII `YYYY-MM` bucket strings. -/
def strLt (a b : String) : Bool := strLtGo a.toList b.toList

/-- Digit grouping of a reversed digit list in blocks of three. -/
def groupRev : List Char → List Char
  | a :: b :: c :: d :: rest => a :: b :: c :: ',' :: groupRev (d :: rest)
  | l => l

/-- Thousands separators, as in Python format `,`. -/
def insertThousands (s : String) : String :=
  String.mk ((groupRev s.toList.reverse).reverse)

/-- Money rendering `{:,.2f}` for cent-exact rationals: thousands-grouped
integer part, a dot, and two decimal digits. -/
def fmtMoney (q : ℚ) : String :=
  let c : Int := q.num * 100 / (q.den : Int)
  let sign := if c < 0 then "-" else ""
  let n := c.natAbs
  sign ++ insertThousands (toString (n / 100)) ++ "." ++ pad2 (n % 100)

/-! ## Data model (`budget/models.py`) -/

/-- Row of `UserProfile` (the fields the views read). -/
structure UserProfile where
  user : String
  monthly_salary : ℚ
deriving DecidableEq, Repr

/-- Row of `Expense`. -/
structure Expense where
  user : String
  category : String
  amount : ℚ
  date : Date
  month_year : String
deriving DecidableEq, Repr

/-- Row of `Investment`. -/
structure Investment where
  user : String
  investment_type : String
  amount : ℚ
  date : Date
  month_year : String
deriving DecidableEq, Repr

/-- Row of `Budget`. -/
structure Budget where
  user : String
  category : String
  allocated_amount : ℚ
  month_year : String
deriving DecidableEq, Repr

/-- Row of `MonthlyReport`. -/
structure MonthlyReport where
  user : String
  month_year : String
  total_income : ℚ
  total_expenses : ℚ
  total_investments : ℚ
  total_savings : ℚ
  pdf_file : String
deriving DecidableEq, Repr

/-- The database tables the analysed views touch. -/
structure DB where
  expenses : List Expense
  investments : List Investment
  budgets : List Budget
  reports : List MonthlyReport
deriving DecidableEq, Repr

/-- Method `Expense.save`: `self.month_year = self.date.strftime('%Y-%m')`
before the write, overwriting whatever was stored in the field. -/
def Expense.save (e : Expense) : Expense :=
  { e with month_year := e.date.bucket }

/-- Method `Investment.save`: identical recomputation of `month_year`. -/
def Investment.save (v : Investment) : Investment :=
  { v with month_year := v.date.bucket }

/-- The `Expense` category choices, as listed in `CATEGORY_CHOICES`. -/
def categories : List String :=
  ["Food", "Transport", "Shopping", "Bills", "Entertainment", "Healthcare",
   "Education", "Other"]

/-! ## Query helpers -/

/-- Expenses of one owner in one bucket
(`Expense.objects.filter(user=.., month_year=..)`). -/
def expensesFor (db : List Expense) (u b : String) : List Expense :=
  db.filter (fun e => e.user == u && e.month_year == b)

/-- Investments of one owner in one bucket. -/
def investmentsFor (db : List Investment) (u b : String) : List Investment :=
  db.filter (fun v => v.user == u && v.month_year == b)

/-- Django `aggregate(total=Sum('amount'))['total']`: `none` when the
queryset is empty, otherwise the sum. -/
def aggAmount (l : List ℚ) : Option ℚ :=
  if l.isEmpty then none else some l.sum

/-- The view idiom `aggregate(...)['total'] or Decimal('0.00')`. -/
def aggOrZero (l : List ℚ) : ℚ := (aggAmount l).getD 0

/-- Owner's expense total for a bucket, as the views compute it. -/
def expenseTotal (db : List Expense) (u b : String) : ℚ :=
  aggOrZero ((expensesFor db u b).map Expense.amount)

/-- Owner's investment total for a bucket, as the views compute it. -/
def investmentTotal (db : List Investment) (u b : String) : ℚ :=
  aggOrZero ((investmentsFor db u b).map Investment.amount)

/-! ## Dashboard totals (`views.dashboard`, also recomputed at the head of
`views.download_report`) -/

/-- The four headline figures of the dashboard. -/
structure Totals where
  income : ℚ
  expenses : ℚ
  investments : ℚ
  savings : ℚ
deriving DecidableEq, Repr

/-- Lines 84–101 of `views.py`: income from the profile salary, expense and
investment totals for the current bucket, savings as the difference. -/
def monthlyTotals (profile : UserProfile) (exps : List Expense)
    (invs : List Investment) (bucket : String) : Totals :=
  let total_income := profile.monthly_salary
  let total_expenses := expenseTotal exps profile.user bucket
  let total_investments := investmentTotal invs profile.user bucket
  { income := total_income
    expenses := total_expenses
    investments := total_investments
    savings := total_income - total_expenses - total_investments }

/-! ## Budget model methods (`Budget.get_spent_amount` etc.) -/

/-- Method `Budget.get_spent_amount`: Python `sum(...)` over the matching
expenses, which starts from `0`. -/
def Budget.get_spent_amount (b : Budget) (exps : List Expense) : ℚ :=
  ((exps.filter (fun e =>
      e.user == b.user && e.category == b.category &&
      e.month_year == b.month_year)).map Expense.amount).sum

/-- Method `Budget.get_remaining_budget`. -/
def Budget.get_remaining_budget (b : Budget) (exps : List Expense) : ℚ :=
  b.allocated_amount - b.get_spent_amount exps

/-- Method `Budget.get_percentage_used`, with the divide-by-zero guard. -/
def Budget.get_percentage_used (b : Budget) (exps : List Expense) : ℚ :=
  if b.allocated_amount = 0 then 0
  else (b.get_spent_amount exps / b.allocated_amount) * 100

/-! ## Budget fallback in the dashboard (lines 116–133) -/

/-- Maximum of a list of bucket strings under code-point order, i.e. the
`month_year` of `order_by('-month_year').first()`. -/
def maxBucket : List String → Option String
  | [] => none
  | b :: rest => some (rest.foldl (fun acc x => if strLt acc x then x else acc) b)

/-- All bucket strings of one owner's budget rows. -/
def budgetBuckets (budgets : List Budget) (u : String) : List String :=
  (budgets.filter (fun b => b.user == u)).map Budget.month_year

/-- Lines 118–124: the bucket the dashboard's budget section uses — the
requested one when the owner has budget rows there, otherwise the
`month_year` of the owner's first row by descending bucket order. -/
def budgetMonthUsed (budgets : List Budget) (u cur : String) : String :=
  if (budgets.filter (fun b => b.user == u && b.month_year == cur)).isEmpty then
    match maxBucket (budgetBuckets budgets u) with
    | some m => m
    | none => cur
  else cur

/-- One row of the dashboard's budget-vs-actual table. -/
structure BVARow where
  category : String
  allocated : ℚ
  actual : ℚ
  remaining : ℚ
deriving DecidableEq, Repr

/-- The dashboard's budget section: the bucket actually used (exposed in
the context as `budget_month_used`) together with the table rows. -/
structure BudgetSection where
  budget_month_used : String
  rows : List BVARow
deriving DecidableEq, Repr

/-- Lines 116–133 plus context keys `budget_month_used` / `budget_vs_actual`. -/
def dashboardBudgetSection (budgets : List Budget) (exps : List Expense)
    (u cur : String) : BudgetSection :=
  let used := budgetMonthUsed budgets u cur
  { budget_month_used := used
    rows := (budgets.filter (fun b => b.user == u && b.month_year == used)).map
      (fun b =>
        { category := b.category
          allocated := b.allocated_amount
          actual := b.get_spent_amount exps
          remaining := b.get_remaining_budget exps }) }

/-! ## Spending trend (lines 135–147, same loop at lines 603–608) -/

/-- Six-month spending trend: for `i` in `range n`, bucket of
`now - timedelta(days=30*i)` with that bucket's expense total, then
`reverse()`. The anchor is the day count of `timezone.now()`. -/
def spendingTrend (exps : List Expense) (u : String) (anchor : Int)
    (n : Nat) : List (String × ℚ) :=
  ((List.range n).map (fun (i : Nat) =>
    let month := bucketOfDay (anchor - 30 * (i : Int))
    (month, expenseTotal exps u month))).reverse

/-! ## Budget management POST (`views.budget_management`, lines 362–379) -/

/-- Effect of `Budget.objects.get_or_create(..., defaults={'allocated_amount': amt})`
followed by `budget.allocated_amount = amt; budget.save()` when the row
existed: an upsert keyed on `(user, category, month_year)`. -/
def budgetUpsert (bs : List Budget) (u cat bucket : String) (amt : ℚ) :
    List Budget :=
  if bs.any (fun b => b.user == u && b.category == cat && b.month_year == bucket) then
    bs.map (fun b =>
      if b.user == u && b.category == cat && b.month_year == bucket then
        { b with allocated_amount := amt }
      else b)
  else bs ++ [{ user := u, category := cat, allocated_amount := amt,
                month_year := bucket }]

/-- POSTed form data: for each category, `request.POST.get(f'budget_{c}')`
parsed as a `Decimal`; `none` models an absent or empty field. -/
def PostAmounts := String → Option ℚ

/-- Loop body of the `budget_management` POST branch for one category: if
an amount was submitted (`amount` truthy) and parses `> 0`, upsert the
row for the current bucket; otherwise skip the category. -/
def budgetStep (u bucket : String) (post : PostAmounts)
    (acc : List Budget) (cat : String) : List Budget :=
  match post cat with
  | some a => if 0 < a then budgetUpsert acc u cat bucket a else acc
  | none => acc

/-- The POST branch of `budget_management`: the per-category loop over
`CATEGORY_CHOICES`. -/
def budget_management_post (u bucket : String) (post : PostAmounts)
    (bs : List Budget) : List Budget :=
  categories.foldl (budgetStep u bucket post) bs

/-- Row count for one `(user, category, month_year)` key. -/
def budgetCount (bs : List Budget) (u cat bucket : String) : Nat :=
  (bs.filter (fun b =>
    b.user == u && b.category == cat && b.month_year == bucket)).length

/-- Rows of one `(user, category, month_year)` key. -/
def budgetRowsFor (bs : List Budget) (u cat bucket : String) : List Budget :=
  bs.filter (fun b =>
    b.user == u && b.category == cat && b.month_year == bucket)

/-! ## Month reset (`views.reset_month`, lines 497–515) -/

/-- Result of a `reset_month` request: the database afterwards and, when
the deletion ran, the reported `(expenses, investments)` deletion counts
(`None` models the confirmation page being rendered instead). -/
structure ResetResult where
  db : DB
  deletedCounts : Option (Nat × Nat)
deriving DecidableEq, Repr

/-- The `reset_month` view: only a POST deletes; the bucket is
`timezone.now().strftime('%Y-%m')`, computed at call time from `now`,
never read from the request. -/
def reset_month (method : String) (u : String) (now : Date) (db : DB) :
    ResetResult :=
  if method == "POST" then
    let cur := now.bucket
    let expToDelete := expensesFor db.expenses u cur
    let invToDelete := investmentsFor db.investments u cur
    { db := { db with
        expenses := db.expenses.filter (fun e =>
          !(e.user == u && e.month_year == cur))
        investments := db.investments.filter (fun v =>
          !(v.user == u && v.month_year == cur)) }
      deletedCounts := some (expToDelete.length, invToDelete.length) }
  else
    { db := db, deletedCounts := none }

/-! ## Report generation (`views.download_report`, lines 518–782) -/

/-- Environment of one `download_report` call: whether the ReportLab import
succeeds, and whether the PDF construction raises (with the rendered
exception text when it does). -/
structure GenConfig where
  backendAvailable : Bool
  pdfFailure : Option String
deriving DecidableEq, Repr

/-- Content of the text fallback file, line by line, as written at lines
566–574 and 770–780. -/
def textReportLines (cur userDisplay email sym : String)
    (salary te ti ts : ℚ) (genTime : String) (tb : Option String) :
    List String :=
  ["Spendly Monthly Report - " ++ cur,
   "User: " ++ userDisplay,
   "Email: " ++ email,
   "Monthly Salary: " ++ sym ++ fmtMoney salary,
   "Total Expenses: " ++ sym ++ fmtMoney te,
   "Total Investments: " ++ sym ++ fmtMoney ti,
   "Total Savings: " ++ sym ++ fmtMoney ts,
   "Report Generated: " ++ genTime] ++
  (match tb with
   | none => []
   | some t => ["", "--- DEBUG TRACEBACK ---", t])

/-- The message levels `download_report` can emit. -/
inductive GenMessage
  | warningTextFallback
  | errorPdfFailed (detail : String)
deriving DecidableEq, Repr

/-- Result of a POST to `download_report`: the attachment filename, the
text-file content when the text path wrote one, the message emitted, and
the database afterwards. -/
structure GenResult where
  returnedFile : String
  textWritten : Option (List String)
  message : Option GenMessage
  db : DB
deriving DecidableEq, Repr

/-- Effect of `MonthlyReport.objects.update_or_create(user=.., month_year=..,
defaults=..)`: update the matching row in place, or append a new one. -/
def reportsUpsert (rs : List MonthlyReport) (r : MonthlyReport) :
    List MonthlyReport :=
  if rs.any (fun x => x.user == r.user && x.month_year == r.month_year) then
    rs.map (fun x =>
      if x.user == r.user && x.month_year == r.month_year then r else x)
  else rs ++ [r]

/-- Report rows for one `(user, month_year)` pair. -/
def reportsFor (rs : List MonthlyReport) (u b : String) : List MonthlyReport :=
  rs.filter (fun x => x.user == u && x.month_year == b)

/-- The POST body of `download_report` (lines 526–782). `now` is the civil
date of `timezone.now()`; `genTime` its rendered timestamp; `userDisplay`
and `email` the account fields echoed into the text report. -/
def download_report (cfg : GenConfig) (profile : UserProfile)
    (userDisplay email sym : String) (now : Date) (genTime : String)
    (db : DB) : GenResult :=
  let u := profile.user
  let cur := now.bucket
  let total_income := profile.monthly_salary
  let total_expenses := expenseTotal db.expenses u cur
  let total_investments := investmentTotal db.investments u cur
  let total_savings := total_income - total_expenses - total_investments
  let pdf_filename := "monthly_report_" ++ u ++ "_" ++ cur ++ ".pdf"
  let txt_filename := "monthly_report_" ++ u ++ "_" ++ cur ++ ".txt"
  let mkRecord : String → MonthlyReport := fun file =>
    { user := u, month_year := cur, total_income := total_income,
      total_expenses := total_expenses,
      total_investments := total_investments,
      total_savings := total_savings, pdf_file := file }
  if !cfg.backendAvailable then
    -- Lines 564–589: text fallback because ReportLab is unavailable.
    { returnedFile := txt_filename
      textWritten := some (textReportLines cur userDisplay email sym
        total_income total_expenses total_investments total_savings
        genTime none)
      message := some GenMessage.warningTextFallback
      db := { db with reports := reportsUpsert db.reports (mkRecord txt_filename) } }
  else
    match cfg.pdfFailure with
    | none =>
      -- Lines 592–766: PDF built and record upserted to the PDF path.
      { returnedFile := pdf_filename
        textWritten := none
        message := none
        db := { db with reports := reportsUpsert db.reports (mkRecord pdf_filename) } }
    | some detail =>
      -- Lines 767–782: exception fallback — text file with traceback,
      -- error message, but no `update_or_create` call on this path.
      { returnedFile := txt_filename
        textWritten := some (textReportLines cur userDisplay email sym
          total_income total_expenses total_investments total_savings
          genTime (some detail))
        message := some (GenMessage.errorPdfFailed detail)
        db := db }

/-- The method gate of `download_report` (lines 521–524): a non-POST is
redirected with no side effect. -/
def download_report_entry (method : String) (cfg : GenConfig)
    (profile : UserProfile) (userDisplay email sym : String) (now : Date)
    (genTime : String) (db : DB) : Option GenResult :=
  if method == "POST" then
    some (download_report cfg profile userDisplay email sym now genTime db)
  else none

/-! ## General lemmas about the query helpers -/

/-- Coalescing the Django aggregate with `or 0` yields the plain sum: the
`none` case only arises on the empty queryset, whose sum is `0`. -/
theorem aggOrZero_eq_sum (l : List ℚ) : aggOrZero l = l.sum := by
  unfold aggOrZero aggAmount
  cases l <;> simp

/-- Summing a filtered-and-projected list equals summing the projection
guarded by the predicate. -/
theorem sum_map_filter_eq {α : Type} (l : List α) (p : α → Bool) (f : α → ℚ) :
    ((l.filter p).map f).sum = (l.map (fun a => if p a then f a else 0)).sum := by
  induction l with
  | nil => simp
  | cons a t ih =>
    by_cases h : p a <;> simp [List.filter_cons, h, ih]

/-- Expense totals as a guarded sum over the whole table. -/
theorem expenseTotal_eq (db : List Expense) (u b : String) :
    expenseTotal db u b =
      (db.map (fun e => if e.user = u ∧ e.month_year = b then e.amount else 0)).sum := by
  rw [expenseTotal, aggOrZero_eq_sum, expensesFor,
    sum_map_filter_eq db (fun e => e.user == u && e.month_year == b) Expense.amount]
  have h : (fun (e : Expense) =>
      if (e.user == u && e.month_year == b) = true then e.amount else 0)
      = (fun e => if e.user = u ∧ e.month_year = b then e.amount else 0) := by
    funext e
    by_cases h1 : e.user = u <;> by_cases h2 : e.month_year = b <;> simp [h1, h2]
  rw [h]

/-- Investment totals as a guarded sum over the whole table. -/
theorem investmentTotal_eq (db : List Investment) (u b : String) :
    investmentTotal db u b =
      (db.map (fun v => if v.user = u ∧ v.month_year = b then v.amount else 0)).sum := by
  rw [investmentTotal, aggOrZero_eq_sum, investmentsFor,
    sum_map_filter_eq db (fun v => v.user == u && v.month_year == b) Investment.amount]
  have h : (fun (v : Investment) =>
      if (v.user == u && v.month_year == b) = true then v.amount else 0)
      = (fun v => if v.user = u ∧ v.month_year = b then v.amount else 0) := by
    funext v
    by_cases h1 : v.user = u <;> by_cases h2 : v.month_year = b <;> simp [h1, h2]
  rw [h]

/-- Budget spent amount as a guarded sum over the whole expense table. -/
theorem get_spent_amount_eq (b : Budget) (exps : List Expense) :
    b.get_spent_amount exps =
      (exps.map (fun e =>
        if e.user = b.user ∧ e.category = b.category ∧ e.month_year = b.month_year
        then e.amount else 0)).sum := by
  rw [Budget.get_spent_amount,
    sum_map_filter_eq exps
      (fun e => e.user == b.user && e.category == b.category &&
        e.month_year == b.month_year) Expense.amount]
  have h : (fun (e : Expense) =>
      if (e.user == b.user && e.category == b.category &&
          e.month_year == b.month_year) = true then e.amount else 0)
      = (fun e =>
      if e.user = b.user ∧ e.category = b.category ∧ e.month_year = b.month_year
      then e.amount else 0) := by
    funext e
    by_cases h1 : e.user = b.user <;> by_cases h2 : e.category = b.category <;>
      by_cases h3 : e.month_year = b.month_year <;> simp [h1, h2, h3]
  rw [h]

/-! ## C1 -/

/-- The C1 scenario profile: owner `alice` with salary 5200.00. -/
def c1Profile : UserProfile := { user := "alice", monthly_salary := 5200 }

/-- The C1 scenario expense table: alice's bucket `2024-06` sums to 1800.00;
a foreign owner and a foreign bucket are present and must be ignored. -/
def c1Exps : List Expense :=
  [{ user := "alice", category := "Food", amount := 1000,
     date := ⟨2024, 6, 10⟩, month_year := "2024-06" },
   { user := "alice", category := "Bills", amount := 800,
     date := ⟨2024, 6, 20⟩, month_year := "2024-06" },
   { user := "bob", category := "Food", amount := 55,
     date := ⟨2024, 6, 5⟩, month_year := "2024-06" },
   { user := "alice", category := "Food", amount := 70,
     date := ⟨2024, 5, 1⟩, month_year := "2024-05" }]

/-- The C1 scenario investment table: alice's bucket `2024-06` sums to 300.00. -/
def c1Invs : List Investment :=
  [{ user := "alice", investment_type := "Stocks", amount := 300,
     date := ⟨2024, 6, 12⟩, month_year := "2024-06" },
   { user := "bob", investment_type := "Crypto", amount := 10,
     date := ⟨2024, 6, 12⟩, month_year := "2024-06" }]

/-- C1: for every owner and bucket, `monthlyTotals` returns income equal to
the profile salary, expenses and investments equal to the guarded sums of
matching rows (so `0` when none match), and savings equal to
income − expenses − investments with no clamping; in the spec scenario
(salary 5200.00, bucket expenses 1800.00, investments 300.00) it returns
(5200.00, 1800.00, 300.00, 3100.00), and savings can go negative. -/
theorem C1_monthlyTotals_correct :
    (∀ (p : UserProfile) (exps : List Expense) (invs : List Investment)
        (bucket : String),
      (monthlyTotals p exps invs bucket).income = p.monthly_salary ∧
      (monthlyTotals p exps invs bucket).expenses =
        (exps.map (fun e =>
          if e.user = p.user ∧ e.month_year = bucket then e.amount else 0)).sum ∧
      (monthlyTotals p exps invs bucket).investments =
        (invs.map (fun v =>
          if v.user = p.user ∧ v.month_year = bucket then v.amount else 0)).sum ∧
      (monthlyTotals p exps invs bucket).savings =
        (monthlyTotals p exps invs bucket).income -
        (monthlyTotals p exps invs bucket).expenses -
        (monthlyTotals p exps invs bucket).investments) ∧
    monthlyTotals c1Profile c1Exps c1Invs "2024-06" =
      { income := 5200, expenses := 1800, investments := 300, savings := 3100 } ∧
    monthlyTotals c1Profile [] [] "2024-06" =
      { income := 5200, expenses := 0, investments := 0, savings := 5200 } ∧
    (monthlyTotals { user := "alice", monthly_salary := 100 } c1Exps c1Invs
      "2024-06").savings = -2000 := by
  refine ⟨fun p exps invs bucket => ⟨rfl, ?_, ?_, rfl⟩, ?_, ?_, ?_⟩
  · exact expenseTotal_eq exps p.user bucket
  · exact investmentTotal_eq invs p.user bucket
  · simp [monthlyTotals, c1Profile, c1Exps, c1Invs, expenseTotal,
      investmentTotal, expensesFor, investmentsFor, aggOrZero, aggAmount]
    norm_num
  · simp [monthlyTotals, c1Profile, expenseTotal, investmentTotal,
      expensesFor, investmentsFor, aggOrZero, aggAmount]
  · simp [monthlyTotals, c1Exps, c1Invs, expenseTotal, investmentTotal,
      expensesFor, investmentsFor, aggOrZero, aggAmount]
    norm_num

/-! ## C2 -/

/-- C2: every save of an `Expense` or `Investment` recomputes the month
bucket from the record's own date as `YYYY-MM` (4-digit year, hyphen,
2-digit zero-padded month); a caller-supplied `month_year` is ignored, and
re-saving after a date change yields exactly the new date's bucket — in
particular moving 2024-03-15 to 2024-04-02 moves the bucket from
`2024-03` to `2024-04`. -/
theorem C2_bucket_recomputed_on_save :
    (∀ e : Expense, e.save.month_year = fmtYM e.date.year e.date.month) ∧
    (∀ v : Investment, v.save.month_year = fmtYM v.date.year v.date.month) ∧
    (∀ (e : Expense) (m : String), ({ e with month_year := m } : Expense).save = e.save) ∧
    (∀ (v : Investment) (m : String), ({ v with month_year := m } : Investment).save = v.save) ∧
    (∀ (e : Expense) (d : Date), ({ e with date := d } : Expense).save.month_year = d.bucket) ∧
    (∀ (v : Investment) (d : Date), ({ v with date := d } : Investment).save.month_year = d.bucket) ∧
    ({ user := "alice", category := "Food", amount := 10,
       date := ⟨2024, 3, 15⟩, month_year := "" } : Expense).save.month_year = "2024-03" ∧
    ({ user := "alice", category := "Food", amount := 10,
       date := ⟨2024, 4, 2⟩, month_year := "2024-03" } : Expense).save.month_year = "2024-04" := by
  refine ⟨fun e => rfl, fun v => rfl, fun e m => rfl, fun v m => rfl,
    fun e d => rfl, fun v d => rfl, ?_, ?_⟩ <;> decide

/-! ## C3 -/

/-- The C3 scenario: a 500.00 `Food` allocation for `2024-06`. -/
def c3Budget : Budget :=
  { user := "alice", category := "Food", allocated_amount := 500,
    month_year := "2024-06" }

/-- The C3 scenario expenses: matching rows summing to 620.00 plus one row
of a different category. -/
def c3Exps : List Expense :=
  [{ user := "alice", category := "Food", amount := 400,
     date := ⟨2024, 6, 3⟩, month_year := "2024-06" },
   { user := "alice", category := "Food", amount := 220,
     date := ⟨2024, 6, 9⟩, month_year := "2024-06" },
   { user := "alice", category := "Bills", amount := 90,
     date := ⟨2024, 6, 9⟩, month_year := "2024-06" }]

/-- C3: with actual the sum of same-owner, same-category, same-bucket
expense amounts, every budget row satisfies remaining = allocated − actual;
percent-used is 0 whenever allocated is 0 (whatever actual is) and
(actual / allocated) × 100 otherwise; allocated 500.00 against 620.00 of
matching expenses yields remaining −120.00 and percent-used 124. -/
theorem C3_budget_arithmetic :
    ∀ (b : Budget) (exps : List Expense),
      b.get_spent_amount exps =
        (exps.map (fun e =>
          if e.user = b.user ∧ e.category = b.category ∧ e.month_year = b.month_year
          then e.amount else 0)).sum ∧
      b.get_remaining_budget exps = b.allocated_amount - b.get_spent_amount exps ∧
      (b.allocated_amount = 0 → b.get_percentage_used exps = 0) ∧
      (b.allocated_amount ≠ 0 →
        b.get_percentage_used exps =
          (b.get_spent_amount exps / b.allocated_amount) * 100) ∧
      c3Budget.get_spent_amount c3Exps = 620 ∧
      c3Budget.get_remaining_budget c3Exps = -120 ∧
      c3Budget.get_percentage_used c3Exps = 124 := by
  intro b exps
  refine ⟨get_spent_amount_eq b exps, rfl, ?_, ?_, ?_, ?_, ?_⟩
  · intro h; simp [Budget.get_percentage_used, h]
  · intro h; simp [Budget.get_percentage_used, h]
  · simp [c3Budget, c3Exps, Budget.get_spent_amount]; norm_num
  · simp [c3Budget, c3Exps, Budget.get_remaining_budget,
      Budget.get_spent_amount]; norm_num
  · simp [c3Budget, c3Exps, Budget.get_percentage_used,
      Budget.get_spent_amount]; norm_num

/-- Witness for C3 at a concrete zero-allocation budget: the percent-used
guard fires and reports 0 even though 620.00 was spent. -/
theorem C3_budget_arithmetic_witness :
    ({ c3Budget with allocated_amount := 0 } : Budget).get_percentage_used c3Exps = 0 :=
  (C3_budget_arithmetic { c3Budget with allocated_amount := 0 } c3Exps).2.2.1 rfl

/-! ## String order lemmas (for the bucket fallback) -/

/-- Characters with equal code points are equal. -/
theorem charEqOfToNat (x y : Char) (h : x.toNat = y.toNat) : x = y :=
  Char.eq_of_val_eq (UInt32.ext h)

/-- Code-point comparison is irreflexive. -/
theorem strLtGo_irrefl (a : List Char) : strLtGo a a = false := by
  induction a with
  | nil => rfl
  | cons x xs ih => simp [strLtGo, ih]

/-- Code-point comparison is transitive. -/
theorem strLtGo_trans (a : List Char) : ∀ b c, strLtGo a b = true →
    strLtGo b c = true → strLtGo a c = true := by
  induction a with
  | nil =>
    intro b c h1 h2
    cases b with
    | nil => simp [strLtGo] at h1
    | cons y ys =>
      cases c with
      | nil => simp [strLtGo] at h2
      | cons z zs => simp [strLtGo]
  | cons x xs ih =>
    intro b c h1 h2
    cases b with
    | nil => simp [strLtGo] at h1
    | cons y ys =>
      cases c with
      | nil => simp [strLtGo] at h2
      | cons z zs =>
        simp only [strLtGo] at h1 h2 ⊢
        by_cases hxy : x.toNat < y.toNat <;> by_cases hyx : y.toNat < x.toNat <;>
          by_cases hyz : y.toNat < z.toNat <;> by_cases hzy : z.toNat < y.toNat <;>
          simp_all <;>
          first
            | omega
            | exact Or.inr (And.intro (by omega) (ih ys zs h1 h2))

/-- Lists on which code-point comparison fails both ways are equal. -/
theorem strLtGo_antisymm (a : List Char) : ∀ b, strLtGo a b = false →
    strLtGo b a = false → a = b := by
  induction a with
  | nil =>
    intro b h1 _
    cases b with
    | nil => rfl
    | cons y ys => simp [strLtGo] at h1
  | cons x xs ih =>
    intro b h1 h2
    cases b with
    | nil => simp [strLtGo] at h2
    | cons y ys =>
      simp only [strLtGo] at h1 h2
      by_cases hxy : x.toNat < y.toNat <;> by_cases hyx : y.toNat < x.toNat <;>
        simp_all
      rw [charEqOfToNat x y (by omega), ih ys h1 h2]
      exact And.intro rfl rfl

/-- String comparison is irreflexive. -/
theorem strLt_irrefl (a : String) : strLt a a = false := strLtGo_irrefl a.toList

/-- String comparison is transitive. -/
theorem strLt_trans {a b c : String} (h1 : strLt a b = true)
    (h2 : strLt b c = true) : strLt a c = true :=
  strLtGo_trans a.toList b.toList c.toList h1 h2

/-- Strings that compare below each other in neither direction are equal. -/
theorem strLt_antisymm {a b : String} (h1 : strLt a b = false)
    (h2 : strLt b a = false) : a = b := by
  cases a with
  | mk da =>
    cases b with
    | mk db =>
      have : da = db := strLtGo_antisymm da db h1 h2
      rw [this]

/-- The running maximum of a bucket fold is one of the candidates. -/
theorem foldMax_mem : ∀ (rest : List String) (b : String),
    rest.foldl (fun acc x => if strLt acc x then x else acc) b ∈ b :: rest := by
  intro rest
  induction rest with
  | nil => intro b; simp
  | cons r rs ih =>
    intro b
    simp only [List.foldl_cons]
    by_cases hbr : strLt b r = true
    · rw [if_pos hbr]
      rcases List.mem_cons.mp (ih r) with h | h
      · rw [h]
        exact List.mem_cons_of_mem _ (List.mem_cons_self r rs)
      · exact List.mem_cons_of_mem _ (List.mem_cons_of_mem _ h)
    · rw [if_neg hbr]
      rcases List.mem_cons.mp (ih b) with h | h
      · rw [h]
        exact List.mem_cons_self b _
      · exact List.mem_cons_of_mem _ (List.mem_cons_of_mem _ h)

/-- No candidate compares above the running maximum of a bucket fold. -/
theorem foldMax_ub : ∀ (rest : List String) (b : String) (s : String),
    s ∈ b :: rest →
    strLt (rest.foldl (fun acc x => if strLt acc x then x else acc) b) s = false := by
  intro rest
  induction rest with
  | nil =>
    intro b s hs
    rcases List.mem_cons.mp hs with h | h
    · rw [h]
      exact strLt_irrefl b
    · exact absurd h (List.not_mem_nil s)
  | cons r rs ih =>
    intro b s hs
    simp only [List.foldl_cons]
    by_cases hbr : strLt b r = true
    · rw [if_pos hbr]
      rcases List.mem_cons.mp hs with h | h
      · rw [h]
        have hr := ih r r (List.mem_cons_self r rs)
        by_contra hc
        simp only [Bool.not_eq_false] at hc
        rw [strLt_trans hc hbr] at hr
        simp at hr
      · rcases List.mem_cons.mp h with h' | h'
        · rw [h']
          exact ih r r (List.mem_cons_self r rs)
        · exact ih r s (List.mem_cons_of_mem r h')
    · rw [if_neg hbr]
      rcases List.mem_cons.mp hs with h | h
      · rw [h]
        exact ih b b (List.mem_cons_self b rs)
      · rcases List.mem_cons.mp h with h' | h'
        · rw [h']
          have hb := ih b b (List.mem_cons_self b rs)
          by_cases hrb : strLt r b = true
          · by_contra hc
            simp only [Bool.not_eq_false] at hc
            rw [strLt_trans hc hrb] at hb
            simp at hb
          · have hbeq : b = r :=
              strLt_antisymm (by simpa using hbr) (by simpa using hrb)
            rw [← hbeq]
            exact hb
        · exact ih b s (List.mem_cons_of_mem b h')

/-- A bucket returned by `maxBucket` is one of the buckets. -/
theorem maxBucket_mem {l : List String} {m : String}
    (h : maxBucket l = some m) : m ∈ l := by
  cases l with
  | nil => simp [maxBucket] at h
  | cons b rest =>
    simp only [maxBucket, Option.some.injEq] at h
    rw [← h]
    exact foldMax_mem rest b

/-- A bucket returned by `maxBucket` is maximal among the buckets. -/
theorem maxBucket_isMax {l : List String} {m : String}
    (h : maxBucket l = some m) : ∀ x ∈ l, strLt m x = false := by
  cases l with
  | nil => simp [maxBucket] at h
  | cons b rest =>
    simp only [maxBucket, Option.some.injEq] at h
    intro x hx
    rw [← h]
    exact foldMax_ub rest b x hx

/-! ## C4 -/

/-- Budgets refuting C4 as stated: `alice` has rows in `2024-05` and in
`2024-09`, and none in the requested `2024-06`. -/
def c4Budgets : List Budget :=
  [{ user := "alice", category := "Food", allocated_amount := 100,
     month_year := "2024-05" },
   { user := "alice", category := "Transport", allocated_amount := 200,
     month_year := "2024-09" }]

/-- Counterexample to C4 as stated: with no budgets in the requested bucket
`2024-06`, a row in the prior bucket `2024-05` and a row in the later
bucket `2024-09`, the fallback picks `2024-09` — a bucket strictly after
the requested one — not the most recent prior bucket `2024-05`. -/
theorem C4_counterexample :
    budgetMonthUsed c4Budgets "alice" "2024-06" = "2024-09" ∧
    strLt "2024-06" "2024-09" = true ∧
    budgetMonthUsed c4Budgets "alice" "2024-06" ≠ "2024-05" ∧
    "2024-05" ∈ budgetBuckets c4Budgets "alice" ∧
    strLt "2024-05" "2024-06" = true := by
  refine ⟨by decide, by decide, by decide, by decide, by decide⟩

/-- The budget table of the C4 scenario: a single row in `2024-05`. -/
def c4ScenarioBudgets : List Budget :=
  [{ user := "alice", category := "Food", allocated_amount := 100,
     month_year := "2024-05" }]

/-- C4 amended: when the owner has budget rows in the requested bucket that
bucket is used; otherwise the fallback picks the lexically greatest bucket
among all of the owner's budget rows — which may lie after the requested
bucket — or keeps the requested bucket when the owner has no rows at all;
in every case the bucket actually used is returned to the caller in the
`budget_month_used` context key. In the spec scenario (no budgets in the
current bucket, one row in `2024-05`) the section uses and reports
`2024-05`. -/
theorem C4_fallback_amended :
    (∀ (budgets : List Budget) (exps : List Expense) (u cur : String),
      (dashboardBudgetSection budgets exps u cur).budget_month_used =
        budgetMonthUsed budgets u cur ∧
      (budgets.filter (fun b => b.user == u && b.month_year == cur) ≠ [] →
        budgetMonthUsed budgets u cur = cur) ∧
      (budgets.filter (fun b => b.user == u && b.month_year == cur) = [] →
        budgetBuckets budgets u = [] →
        budgetMonthUsed budgets u cur = cur) ∧
      (budgets.filter (fun b => b.user == u && b.month_year == cur) = [] →
        budgetBuckets budgets u ≠ [] →
        budgetMonthUsed budgets u cur ∈ budgetBuckets budgets u ∧
        ∀ x ∈ budgetBuckets budgets u,
          strLt (budgetMonthUsed budgets u cur) x = false)) ∧
    budgetMonthUsed c4ScenarioBudgets "alice" "2024-06" = "2024-05" ∧
    (dashboardBudgetSection c4ScenarioBudgets [] "alice"
      "2024-06").budget_month_used = "2024-05" := by
  refine ⟨fun budgets exps u cur => ⟨rfl, ?_, ?_, ?_⟩, by decide, by decide⟩
  · intro h
    rw [budgetMonthUsed, if_neg]
    simpa [List.isEmpty_iff] using h
  · intro h hb
    rw [budgetMonthUsed, if_pos (by simpa [List.isEmpty_iff] using h)]
    simp [hb, maxBucket]
  · intro h hb
    rw [budgetMonthUsed, if_pos (by simpa [List.isEmpty_iff] using h)]
    cases hmax : maxBucket (budgetBuckets budgets u) with
    | none =>
      cases hl : budgetBuckets budgets u with
      | nil => exact absurd hl hb
      | cons a rest => rw [hl] at hmax; simp [maxBucket] at hmax
    | some m =>
      exact ⟨maxBucket_mem hmax, maxBucket_isMax hmax⟩

/-- Witness for C4 amended, at the counterexample table: the fallback
bucket is one of alice's budget buckets and no bucket of hers exceeds it. -/
theorem C4_fallback_amended_witness :
    budgetMonthUsed c4Budgets "alice" "2024-06" ∈ budgetBuckets c4Budgets "alice" ∧
    strLt (budgetMonthUsed c4Budgets "alice" "2024-06") "2024-05" = false :=
  have h := ((C4_fallback_amended.1 c4Budgets [] "alice" "2024-06").2.2.2
    (by decide) (by decide))
  ⟨h.1, h.2 "2024-05" (by decide)⟩

/-! ## Branch equations for `download_report` -/

/-- Text filename of an owner and bucket. -/
def txtName (u b : String) : String := "monthly_report_" ++ u ++ "_" ++ b ++ ".txt"

/-- PDF filename of an owner and bucket. -/
def pdfName (u b : String) : String := "monthly_report_" ++ u ++ "_" ++ b ++ ".pdf"

/-- Savings figure recomputed at the head of `download_report`. -/
def drSavings (p : UserProfile) (now : Date) (db : DB) : ℚ :=
  p.monthly_salary - expenseTotal db.expenses p.user now.bucket -
    investmentTotal db.investments p.user now.bucket

/-- The report row `download_report` upserts, pointing at `file`. -/
def drRecord (p : UserProfile) (now : Date) (db : DB) (file : String) :
    MonthlyReport :=
  { user := p.user, month_year := now.bucket,
    total_income := p.monthly_salary,
    total_expenses := expenseTotal db.expenses p.user now.bucket,
    total_investments := investmentTotal db.investments p.user now.bucket,
    total_savings := drSavings p now db, pdf_file := file }

/-- Unavailable-backend branch of `download_report` (lines 564–589). -/
theorem download_report_noBackend (f : Option String) (p : UserProfile)
    (ud em sym : String) (now : Date) (t : String) (db : DB) :
    download_report ⟨false, f⟩ p ud em sym now t db =
      { returnedFile := txtName p.user now.bucket
        textWritten := some (textReportLines now.bucket ud em sym
          p.monthly_salary (expenseTotal db.expenses p.user now.bucket)
          (investmentTotal db.investments p.user now.bucket)
          (drSavings p now db) t none)
        message := some GenMessage.warningTextFallback
        db := { db with reports := reportsUpsert db.reports (drRecord p now db (txtName p.user now.bucket)) } } :=
  rfl

/-- Successful-PDF branch of `download_report` (lines 592–766). -/
theorem download_report_success (p : UserProfile) (ud em sym : String)
    (now : Date) (t : String) (db : DB) :
    download_report ⟨true, none⟩ p ud em sym now t db =
      { returnedFile := pdfName p.user now.bucket
        textWritten := none
        message := none
        db := { db with reports := reportsUpsert db.reports (drRecord p now db (pdfName p.user now.bucket)) } } :=
  rfl

/-- Exception branch of `download_report` (lines 767–782): the text file
embeds the failure detail, the caller gets an error message, and the
report table is left untouched. -/
theorem download_report_failure (d : String) (p : UserProfile)
    (ud em sym : String) (now : Date) (t : String) (db : DB) :
    download_report ⟨true, some d⟩ p ud em sym now t db =
      { returnedFile := txtName p.user now.bucket
        textWritten := some (textReportLines now.bucket ud em sym
          p.monthly_salary (expenseTotal db.expenses p.user now.bucket)
          (investmentTotal db.investments p.user now.bucket)
          (drSavings p now db) t (some d))
        message := some (GenMessage.errorPdfFailed d)
        db := db } :=
  rfl

/-! ## C5 -/

/-- Counterexample to C5 as stated: ReportLab imports but the PDF build
raises. The view writes the text file and returns it, yet the report
table stays empty — no `MonthlyReportRecord` is upserted to point at the
text file on this fallback path. -/
theorem C5_counterexample :
    (download_report ⟨true, some "ValueError: boom"⟩ c1Profile "Alice" "a@x"
      "₨" ⟨2024, 6, 15⟩ "ts" ⟨c1Exps, c1Invs, [], []⟩).db.reports = [] ∧
    (download_report ⟨true, some "ValueError: boom"⟩ c1Profile "Alice" "a@x"
      "₨" ⟨2024, 6, 15⟩ "ts" ⟨c1Exps, c1Invs, [], []⟩).textWritten.isSome = true ∧
    (download_report ⟨true, some "ValueError: boom"⟩ c1Profile "Alice" "a@x"
      "₨" ⟨2024, 6, 15⟩ "ts" ⟨c1Exps, c1Invs, [], []⟩).returnedFile =
      "monthly_report_alice_2024-06.txt" := by
  refine ⟨rfl, rfl, by decide⟩

/-- C5 amended: the text fallback runs exactly when the backend is
unavailable or the PDF path raised. On the unavailable path the view
writes the key-value summary (salary and totals through `fmtMoney`, the
generation timestamp) to the deterministically-named sibling text file,
upserts the report row to point at it, warns the caller, and returns the
file. On the exception path it writes the same summary with the failure
detail embedded, emits an error naming the failure, and returns the text
file, but the report table is left unchanged — no record is upserted
there. -/
theorem C5_text_fallback_amended :
    ∀ (cfg : GenConfig) (p : UserProfile) (ud em sym : String) (now : Date)
      (t : String) (db : DB),
    ((cfg.backendAvailable = false ∨ cfg.pdfFailure ≠ none) ↔
      (download_report cfg p ud em sym now t db).textWritten ≠ none) ∧
    (cfg.backendAvailable = false →
      (download_report cfg p ud em sym now t db).textWritten =
        some (textReportLines now.bucket ud em sym p.monthly_salary
          (expenseTotal db.expenses p.user now.bucket)
          (investmentTotal db.investments p.user now.bucket)
          (drSavings p now db) t none) ∧
      (download_report cfg p ud em sym now t db).returnedFile =
        txtName p.user now.bucket ∧
      (download_report cfg p ud em sym now t db).db.reports =
        reportsUpsert db.reports (drRecord p now db (txtName p.user now.bucket)) ∧
      (download_report cfg p ud em sym now t db).message =
        some GenMessage.warningTextFallback) ∧
    (∀ d : String, cfg.backendAvailable = true → cfg.pdfFailure = some d →
      (download_report cfg p ud em sym now t db).textWritten =
        some (textReportLines now.bucket ud em sym p.monthly_salary
          (expenseTotal db.expenses p.user now.bucket)
          (investmentTotal db.investments p.user now.bucket)
          (drSavings p now db) t (some d)) ∧
      (download_report cfg p ud em sym now t db).returnedFile =
        txtName p.user now.bucket ∧
      (download_report cfg p ud em sym now t db).message =
        some (GenMessage.errorPdfFailed d) ∧
      (download_report cfg p ud em sym now t db).db.reports = db.reports) := by
  intro cfg p ud em sym now t db
  obtain ⟨avail, fail⟩ := cfg
  cases avail with
  | false =>
    cases fail with
    | none =>
      refine ⟨?_, fun _ => ?_, fun d h hd => by simp at hd⟩
      · rw [download_report_noBackend]; simp
      · rw [download_report_noBackend]; exact ⟨rfl, rfl, rfl, rfl⟩
    | some d0 =>
      refine ⟨?_, fun _ => ?_, fun d h hd => by simp at h⟩
      · rw [download_report_noBackend]; simp
      · rw [download_report_noBackend]; exact ⟨rfl, rfl, rfl, rfl⟩
  | true =>
    cases fail with
    | none =>
      refine ⟨?_, fun h => by simp at h, fun d _ hd => by simp at hd⟩
      rw [download_report_success]; simp
    | some d0 =>
      refine ⟨?_, fun h => by simp at h, fun d _ hd => ?_⟩
      · rw [download_report_failure]; simp
      · obtain rfl : d0 = d := by simpa using hd
        rw [download_report_failure]
        exact ⟨rfl, rfl, rfl, rfl⟩

/-- Witness for C5 amended at the spec scenario: backend unavailable on the
C1 data. The returned text artifact carries all four totals rendered with
two decimal places and the original currency symbol. -/
theorem C5_text_fallback_amended_witness :
    (download_report ⟨false, none⟩ c1Profile "Alice" "a@x" "₨" ⟨2024, 6, 15⟩
      "ts" ⟨c1Exps, c1Invs, [], []⟩).textWritten =
    some ["Spendly Monthly Report - 2024-06", "User: Alice", "Email: a@x",
          "Monthly Salary: ₨5,200.00", "Total Expenses: ₨1,800.00",
          "Total Investments: ₨300.00", "Total Savings: ₨3,100.00",
          "Report Generated: ts"] := by
  have h := ((C5_text_fallback_amended ⟨false, none⟩ c1Profile "Alice" "a@x"
    "₨" ⟨2024, 6, 15⟩ "ts" ⟨c1Exps, c1Invs, [], []⟩).2.1 rfl).1
  rw [h]
  have he : expenseTotal c1Exps "alice" "2024-06" = 1800 := by
    simp [c1Exps, expenseTotal, expensesFor, aggOrZero, aggAmount]
    norm_num
  have hi : investmentTotal c1Invs "alice" "2024-06" = 300 := by
    simp [c1Invs, investmentTotal, investmentsFor, aggOrZero, aggAmount]
  have hd : (⟨2024, 6, 15⟩ : Date).bucket = "2024-06" := by decide
  have hu : c1Profile.user = "alice" := rfl
  have hsal : c1Profile.monthly_salary = 5200 := rfl
  rw [drSavings]
  simp only [hd, hu, hsal, he, hi]
  have hs : (5200 : ℚ) - 1800 - 300 = 3100 := by norm_num
  rw [hs]
  decide

/-! ## Counting lemmas for the report upsert -/

/-- Mapping with a function that preserves the predicate preserves the
filtered length. -/
theorem length_filter_map {α : Type} (l : List α) (f : α → α) (p : α → Bool)
    (hf : ∀ a, p (f a) = p a) :
    ((l.map f).filter p).length = (l.filter p).length := by
  induction l with
  | nil => rfl
  | cons a t ih =>
    by_cases h : p a = true <;> simp [List.filter_cons, hf a, h, ih]

/-- Upserting a report row into a table with at most one row for its
`(user, month_year)` pair leaves exactly one row for that pair. -/
theorem reportsUpsert_count (rs : List MonthlyReport) (r : MonthlyReport)
    (h : (reportsFor rs r.user r.month_year).length ≤ 1) :
    (reportsFor (reportsUpsert rs r) r.user r.month_year).length = 1 := by
  unfold reportsFor at h ⊢
  unfold reportsUpsert
  by_cases hany :
      (rs.any fun x => x.user == r.user && x.month_year == r.month_year) = true
  · rw [if_pos hany]
    rw [length_filter_map rs _ _ ?_]
    · obtain ⟨x, hx, hpx⟩ := List.any_eq_true.mp hany
      have hmem : x ∈ rs.filter
          (fun x => x.user == r.user && x.month_year == r.month_year) :=
        List.mem_filter.mpr ⟨hx, hpx⟩
      have hpos := List.length_pos.mpr (List.ne_nil_of_mem hmem)
      omega
    · intro a
      by_cases ha : (a.user == r.user && a.month_year == r.month_year) = true <;>
        simp [ha]
  · rw [if_neg hany]
    rw [List.filter_append]
    have h1 : rs.filter
        (fun x => x.user == r.user && x.month_year == r.month_year) = [] := by
      rw [List.filter_eq_nil_iff]
      intro a ha hp
      exact hany (List.any_eq_true.mpr ⟨a, ha, hp⟩)
    rw [h1]
    simp

/-- Whether a `download_report` call reaches an `update_or_create`: every
path except the exception fallback does. -/
def writesRecord (cfg : GenConfig) : Prop :=
  cfg.backendAvailable = false ∨ cfg.pdfFailure = none

/-- The exception path leaves the report table untouched. -/
theorem download_report_failure_reports (d : String) (p : UserProfile)
    (ud em sym : String) (now : Date) (t : String) (db : DB) :
    (download_report ⟨true, some d⟩ p ud em sym now t db).db.reports =
      db.reports := by
  rw [download_report_failure]

/-- A record-writing `download_report` call leaves exactly one report row
for the `(owner, current bucket)` pair, given at most one before. -/
theorem download_report_count_eq (cfg : GenConfig) (p : UserProfile)
    (ud em sym : String) (now : Date) (t : String) (db : DB)
    (h : (reportsFor db.reports p.user now.bucket).length ≤ 1)
    (hw : writesRecord cfg) :
    (reportsFor (download_report cfg p ud em sym now t db).db.reports
      p.user now.bucket).length = 1 := by
  obtain ⟨avail, fail⟩ := cfg
  cases avail with
  | false =>
    rw [download_report_noBackend]
    exact reportsUpsert_count db.reports (drRecord p now db (txtName p.user now.bucket)) h
  | true =>
    cases fail with
    | none =>
      rw [download_report_success]
      exact reportsUpsert_count db.reports (drRecord p now db (pdfName p.user now.bucket)) h
    | some d =>
      rcases hw with hw | hw <;> simp at hw

/-- Any `download_report` call keeps at most one report row for the
`(owner, current bucket)` pair, given at most one before. -/
theorem download_report_count_le (cfg : GenConfig) (p : UserProfile)
    (ud em sym : String) (now : Date) (t : String) (db : DB)
    (h : (reportsFor db.reports p.user now.bucket).length ≤ 1) :
    (reportsFor (download_report cfg p ud em sym now t db).db.reports
      p.user now.bucket).length ≤ 1 := by
  obtain ⟨avail, fail⟩ := cfg
  cases avail with
  | false =>
    rw [download_report_count_eq ⟨false, fail⟩ p ud em sym now t db h
      (Or.inl rfl)]
  | true =>
    cases fail with
    | none =>
      rw [download_report_count_eq ⟨true, none⟩ p ud em sym now t db h
        (Or.inr rfl)]
    | some d =>
      rw [download_report_failure_reports]
      exact h

/-! ## C6 -/

/-- Counterexample to C6 as stated: generating twice for the same owner and
bucket with the PDF path raising both times leaves zero
`MonthlyReportRecord` rows for the pair, not exactly one — the exception
fallback never reaches the upsert. -/
theorem C6_counterexample :
    (reportsFor (download_report ⟨true, some "boom"⟩ c1Profile "A" "e" "₨"
      ⟨2024, 6, 15⟩ "ts2"
      (download_report ⟨true, some "boom"⟩ c1Profile "A" "e" "₨"
        ⟨2024, 6, 15⟩ "ts1" ⟨[], [], [], []⟩).db).db.reports
      "alice" "2024-06").length = 0 ∧
    (reportsFor (download_report ⟨true, some "boom"⟩ c1Profile "A" "e" "₨"
      ⟨2024, 6, 15⟩ "ts2"
      (download_report ⟨true, some "boom"⟩ c1Profile "A" "e" "₨"
        ⟨2024, 6, 15⟩ "ts1" ⟨[], [], [], []⟩).db).db.reports
      "alice" "2024-06").length ≠ 1 :=
  ⟨rfl, by decide⟩

/-- C6 amended: the report store keeps at most one `MonthlyReportRecord`
per `(owner, bucket)` — generating twice leaves exactly one whenever at
least one of the two generations reaches the upsert (PDF success or
missing-backend text fallback), while exception-path generations leave the
store unchanged, so two failed generations can leave zero. The artifact
filename is the deterministic `monthly_report_{owner}_{bucket}.{pdf|txt}`
pattern, a function of owner, bucket and path kind alone, so regeneration
overwrites rather than accumulates. -/
theorem C6_upsert_amended :
    ∀ (cfg1 cfg2 : GenConfig) (p : UserProfile) (ud em sym : String)
      (now : Date) (t1 t2 : String) (db : DB),
    ((reportsFor db.reports p.user now.bucket).length ≤ 1 →
      (reportsFor (download_report cfg2 p ud em sym now t2
        (download_report cfg1 p ud em sym now t1 db).db).db.reports
        p.user now.bucket).length ≤ 1) ∧
    ((reportsFor db.reports p.user now.bucket).length ≤ 1 →
      writesRecord cfg1 ∨ writesRecord cfg2 →
      (reportsFor (download_report cfg2 p ud em sym now t2
        (download_report cfg1 p ud em sym now t1 db).db).db.reports
        p.user now.bucket).length = 1) ∧
    (∀ (cfg : GenConfig) (t : String) (db' : DB),
      (download_report cfg p ud em sym now t db').returnedFile =
        if cfg.backendAvailable = true ∧ cfg.pdfFailure = none
        then pdfName p.user now.bucket else txtName p.user now.bucket) := by
  intro cfg1 cfg2 p ud em sym now t1 t2 db
  refine ⟨?_, ?_, ?_⟩
  · intro h
    exact download_report_count_le cfg2 p ud em sym now t2 _
      (download_report_count_le cfg1 p ud em sym now t1 db h)
  · intro h hw
    by_cases hw2 : writesRecord cfg2
    · exact download_report_count_eq cfg2 p ud em sym now t2 _
        (download_report_count_le cfg1 p ud em sym now t1 db h) hw2
    · have hw1 : writesRecord cfg1 := by
        rcases hw with hw | hw
        · exact hw
        · exact absurd hw hw2
      obtain ⟨a2, f2⟩ := cfg2
      cases a2 with
      | false => exact absurd (Or.inl rfl) hw2
      | true =>
        cases f2 with
        | none => exact absurd (Or.inr rfl) hw2
        | some d =>
          unfold reportsFor
          rw [download_report_failure_reports]
          exact download_report_count_eq cfg1 p ud em sym now t1 db h hw1
  · intro cfg t db'
    obtain ⟨avail, fail⟩ := cfg
    cases avail with
    | false =>
      rw [download_report_noBackend]
      simp
    | true =>
      cases fail with
      | none =>
        rw [download_report_success]
        simp
      | some d =>
        rw [download_report_failure]
        simp

/-- Witness for C6 amended: starting from an empty store, one failed
generation followed by one successful one leaves exactly one record for
the pair. -/
theorem C6_upsert_amended_witness :
    (reportsFor (download_report ⟨true, none⟩ c1Profile "A" "e" "₨"
      ⟨2024, 6, 15⟩ "ts2"
      (download_report ⟨true, some "boom"⟩ c1Profile "A" "e" "₨"
        ⟨2024, 6, 15⟩ "ts1" ⟨[], [], [], []⟩).db).db.reports
      c1Profile.user (⟨2024, 6, 15⟩ : Date).bucket).length = 1 :=
  (C6_upsert_amended ⟨true, some "boom"⟩ ⟨true, none⟩ c1Profile "A" "e" "₨"
    ⟨2024, 6, 15⟩ "ts1" "ts2" ⟨[], [], [], []⟩).2.1
    (by decide) (Or.inr (Or.inr rfl))

/-! ## C7 -/

/-- C7: resetting requires the explicit POST confirmation — any other
method changes nothing and renders the confirmation page; on POST the
bucket is computed from the call-time clock, exactly the owner's
transactions of that bucket are deleted (all other rows and tables are
untouched) and the deleted counts are reported; and report generation
never touches the expense or investment tables. -/
theorem C7_reset_confirmation :
    (∀ (method u : String) (now : Date) (db : DB), method ≠ "POST" →
      reset_month method u now db = { db := db, deletedCounts := none }) ∧
    (∀ (u : String) (now : Date) (db : DB),
      (∀ e : Expense, e ∈ (reset_month "POST" u now db).db.expenses ↔
        e ∈ db.expenses ∧ ¬(e.user = u ∧ e.month_year = now.bucket)) ∧
      (∀ v : Investment, v ∈ (reset_month "POST" u now db).db.investments ↔
        v ∈ db.investments ∧ ¬(v.user = u ∧ v.month_year = now.bucket)) ∧
      (reset_month "POST" u now db).deletedCounts =
        some ((expensesFor db.expenses u now.bucket).length,
              (investmentsFor db.investments u now.bucket).length) ∧
      (reset_month "POST" u now db).db.budgets = db.budgets ∧
      (reset_month "POST" u now db).db.reports = db.reports) ∧
    (∀ (cfg : GenConfig) (p : UserProfile) (ud em sym : String) (now : Date)
        (t : String) (db : DB),
      (download_report cfg p ud em sym now t db).db.expenses = db.expenses ∧
      (download_report cfg p ud em sym now t db).db.investments =
        db.investments) ∧
    (∀ (method : String) (cfg : GenConfig) (p : UserProfile)
        (ud em sym : String) (now : Date) (t : String) (db : DB),
      method ≠ "POST" →
      download_report_entry method cfg p ud em sym now t db = none) := by
  refine ⟨?_, ?_, ?_, ?_⟩
  · intro method u now db h
    rw [reset_month, if_neg (by simpa using h)]
  · intro u now db
    refine ⟨?_, ?_, ?_, ?_, ?_⟩
    · intro e
      rw [reset_month, if_pos (by simp)]
      simp only [List.mem_filter, Bool.not_eq_true', Bool.and_eq_false_iff,
        beq_eq_false_iff_ne, ne_eq]
      constructor
      · rintro ⟨h1, h2⟩
        exact ⟨h1, by tauto⟩
      · rintro ⟨h1, h2⟩
        exact ⟨h1, by tauto⟩
    · intro v
      rw [reset_month, if_pos (by simp)]
      simp only [List.mem_filter, Bool.not_eq_true', Bool.and_eq_false_iff,
        beq_eq_false_iff_ne, ne_eq]
      constructor
      · rintro ⟨h1, h2⟩
        exact ⟨h1, by tauto⟩
      · rintro ⟨h1, h2⟩
        exact ⟨h1, by tauto⟩
    · rw [reset_month, if_pos (by simp)]
    · rw [reset_month, if_pos (by simp)]
    · rw [reset_month, if_pos (by simp)]
  · intro cfg p ud em sym now t db
    obtain ⟨avail, fail⟩ := cfg
    cases avail with
    | false => rw [download_report_noBackend]; exact ⟨rfl, rfl⟩
    | true =>
      cases fail with
      | none => rw [download_report_success]; exact ⟨rfl, rfl⟩
      | some d => rw [download_report_failure]; exact ⟨rfl, rfl⟩
  · intro method cfg p ud em sym now t db h
    rw [download_report_entry, if_neg (by simpa using h)]

/-- Witness for C7 at concrete inputs: a GET request to `reset_month`
changes nothing and reports no counts, and a GET to `download_report` is
rejected. -/
theorem C7_reset_confirmation_witness :
    reset_month "GET" "alice" ⟨2024, 6, 15⟩ ⟨c1Exps, c1Invs, [], []⟩ =
      { db := ⟨c1Exps, c1Invs, [], []⟩, deletedCounts := none } ∧
    download_report_entry "GET" ⟨true, none⟩ c1Profile "A" "e" "₨"
      ⟨2024, 6, 15⟩ "ts" ⟨c1Exps, c1Invs, [], []⟩ = none :=
  ⟨C7_reset_confirmation.1 "GET" "alice" ⟨2024, 6, 15⟩ ⟨c1Exps, c1Invs, [], []⟩
    (by decide),
   C7_reset_confirmation.2.2.2 "GET" ⟨true, none⟩ c1Profile "A" "e" "₨"
    ⟨2024, 6, 15⟩ "ts" ⟨c1Exps, c1Invs, [], []⟩ (by decide)⟩

/-! ## C8 -/

/-- Bucket key of backward step `i`: the bucket of
`anchor - timedelta(days=30*i)`. -/
def stepBucket (anchor : Int) (i : Nat) : String :=
  bucketOfDay (anchor - 30 * i)

/-- C8: the spending trend walks backward from the anchor in fixed 30-day
steps — one bucket key per step for `n` steps — aggregates the owner's
expense total per bucket key (a guarded sum, `0` when no rows match), and
returns the entries oldest-first: entry `j` of the result is the entry of
step `n − 1 − j`. Because the steps are 30 days and not calendar months,
bucket keys can repeat (30 days before 2024-03-31 is 2024-03-01) and can
be skipped (30 days before 2023-03-01 is 2023-01-30, skipping `2023-02`). -/
theorem C8_spending_trend :
    (∀ (exps : List Expense) (u : String) (anchor : Int) (n : Nat),
      (spendingTrend exps u anchor n).length = n ∧
      (∀ j, j < n →
        (spendingTrend exps u anchor n).getD j ("", 0) =
          (stepBucket anchor (n - 1 - j),
           (exps.map (fun e =>
             if e.user = u ∧ e.month_year = stepBucket anchor (n - 1 - j)
             then e.amount else 0)).sum))) ∧
    stepBucket (daysFromCivil 2024 3 31) 0 = "2024-03" ∧
    stepBucket (daysFromCivil 2024 3 31) 1 = "2024-03" ∧
    stepBucket (daysFromCivil 2023 3 1) 0 = "2023-03" ∧
    stepBucket (daysFromCivil 2023 3 1) 1 = "2023-01" := by
  refine ⟨?_, by decide, by decide, by decide, by decide⟩
  intro exps u anchor n
  have hlen : (spendingTrend exps u anchor n).length = n := by
    rw [spendingTrend, List.length_reverse, List.length_map, List.length_range]
  refine ⟨hlen, ?_⟩
  intro j hj
  have hj' : j < (spendingTrend exps u anchor n).length := by
    rw [hlen]; exact hj
  rw [List.getD_eq_getElem _ _ hj']
  simp only [spendingTrend, List.getElem_reverse, List.getElem_map,
    List.getElem_range, List.length_map, List.length_range]
  rw [expenseTotal_eq]
  rfl

/-- Witness for C8 at a concrete anchor: with no expense rows, entry 5 of
the 6-step trend anchored at 2024-06-15 is the anchor's own bucket with
total 0. -/
theorem C8_spending_trend_witness :
    (spendingTrend [] "alice" (daysFromCivil 2024 6 15) 6).getD 5 ("", 0) =
      ("2024-06", 0) := by
  have h := (C8_spending_trend.1 [] "alice" (daysFromCivil 2024 6 15) 6).2 5
    (by decide)
  rw [h]
  decide

/-! ## Lemmas about the budget upsert -/

/-- Filtering a mapped list with a predicate the map preserves equals
mapping the filtered list. -/
theorem filter_map_pres {α : Type} (l : List α) (f : α → α) (p : α → Bool)
    (hf : ∀ a, p (f a) = p a) :
    (l.map f).filter p = (l.filter p).map f := by
  induction l with
  | nil => rfl
  | cons a t ih =>
    by_cases h : p a = true <;> simp [List.filter_cons, hf a, h, ih]

/-- The budget upsert leaves the rows of every other
`(user, category, month_year)` key unchanged. -/
theorem budgetUpsert_rowsFor_ne (bs : List Budget) (u cat bucket : String)
    (a : ℚ) (u' c b' : String) (h : ¬(u' = u ∧ c = cat ∧ b' = bucket)) :
    budgetRowsFor (budgetUpsert bs u cat bucket a) u' c b' =
      budgetRowsFor bs u' c b' := by
  unfold budgetUpsert budgetRowsFor
  by_cases hany : (bs.any fun b =>
      b.user == u && b.category == cat && b.month_year == bucket) = true
  · rw [if_pos hany]
    clear hany
    rw [filter_map_pres]
    · have hid : ∀ x ∈ bs.filter (fun b =>
          b.user == u' && b.category == c && b.month_year == b'),
          (if x.user == u && x.category == cat && x.month_year == bucket then
            { x with allocated_amount := a } else x) = id x := by
        intro x hx
        have hpx' := (List.mem_filter.mp hx).2
        rw [if_neg]
        · rfl
        · intro hpx
          apply h
          simp only [Bool.and_eq_true, beq_iff_eq] at hpx hpx'
          exact ⟨hpx'.1.1.symm.trans hpx.1.1, hpx'.1.2.symm.trans hpx.1.2,
            hpx'.2.symm.trans hpx.2⟩
      rw [List.map_congr_left hid, List.map_id]
    · intro x
      by_cases hpx : (x.user == u && x.category == cat &&
          x.month_year == bucket) = true <;> simp [hpx]
  · rw [if_neg hany]
    rw [List.filter_append]
    have hnew : ([({ user := u, category := cat, allocated_amount := a, month_year := bucket } : Budget)].filter
        (fun b => b.user == u' && b.category == c && b.month_year == b')) = [] := by
      simp only [List.filter_cons, List.filter_nil]
      rw [if_neg]
      intro hp
      apply h
      simp only [Bool.and_eq_true, beq_iff_eq] at hp
      exact ⟨hp.1.1.symm, hp.1.2.symm, hp.2.symm⟩
    rw [hnew, List.append_nil]

/-- Upserting into a table with at most one row for the key leaves exactly
the single upserted row for that key: every field of that row is the key's
or the submitted amount. -/
theorem budgetUpsert_rowsFor_self (bs : List Budget) (u cat bucket : String)
    (a : ℚ) (hwf : (budgetRowsFor bs u cat bucket).length ≤ 1) :
    budgetRowsFor (budgetUpsert bs u cat bucket a) u cat bucket =
      [{ user := u, category := cat, allocated_amount := a,
         month_year := bucket }] := by
  unfold budgetRowsFor at hwf
  unfold budgetUpsert budgetRowsFor
  by_cases hany : (bs.any fun b =>
      b.user == u && b.category == cat && b.month_year == bucket) = true
  · rw [if_pos hany]
    rw [filter_map_pres]
    · obtain ⟨x, hx, hpx⟩ := List.any_eq_true.mp hany
      have hmem : x ∈ bs.filter (fun b =>
          b.user == u && b.category == cat && b.month_year == bucket) :=
        List.mem_filter.mpr ⟨hx, hpx⟩
      have hpos := List.length_pos.mpr (List.ne_nil_of_mem hmem)
      have hlen1 : (bs.filter (fun b =>
          b.user == u && b.category == cat &&
          b.month_year == bucket)).length = 1 := by omega
      obtain ⟨r, hr⟩ := List.length_eq_one.mp hlen1
      rw [hr]
      have hpr : (r.user == u && r.category == cat &&
          r.month_year == bucket) = true := by
        have hrm : r ∈ bs.filter (fun b =>
            b.user == u && b.category == cat && b.month_year == bucket) := by
          rw [hr]; exact List.mem_cons_self r []
        exact (List.mem_filter.mp hrm).2
      simp only [List.map_cons, List.map_nil, hpr, if_true]
      simp only [Bool.and_eq_true, beq_iff_eq] at hpr
      obtain ⟨⟨h1, h2⟩, h3⟩ := hpr
      cases r
      simp_all
    · intro x
      by_cases hpx : (x.user == u && x.category == cat &&
          x.month_year == bucket) = true <;> simp [hpx]
  · rw [if_neg hany]
    rw [List.filter_append]
    have h0 : bs.filter (fun b =>
        b.user == u && b.category == cat && b.month_year == bucket) = [] := by
      rw [List.filter_eq_nil_iff]
      intro x hx hp
      exact hany (List.any_eq_true.mpr ⟨x, hx, hp⟩)
    rw [h0]
    simp

/-- The upsert keeps every key's row count at most one. -/
theorem budgetUpsert_count_le (bs : List Budget) (u cat bucket : String)
    (a : ℚ) (u' c b' : String)
    (h : (budgetRowsFor bs u' c b').length ≤ 1) :
    (budgetRowsFor (budgetUpsert bs u cat bucket a) u' c b').length ≤ 1 := by
  by_cases hk : u' = u ∧ c = cat ∧ b' = bucket
  · obtain ⟨rfl, rfl, rfl⟩ := hk
    rw [budgetUpsert_rowsFor_self bs u' c b' a h]
    exact Nat.le_refl 1
  · rw [budgetUpsert_rowsFor_ne bs u cat bucket a u' c b' hk]
    exact h

/-- The upsert never lowers a key's row count (it deletes nothing). -/
theorem budgetUpsert_count_ge (bs : List Budget) (u cat bucket : String)
    (a : ℚ) (u' c b' : String) :
    (budgetRowsFor bs u' c b').length ≤
      (budgetRowsFor (budgetUpsert bs u cat bucket a) u' c b').length := by
  unfold budgetUpsert budgetRowsFor
  by_cases hany : (bs.any fun b =>
      b.user == u && b.category == cat && b.month_year == bucket) = true
  · rw [if_pos hany]
    rw [filter_map_pres]
    · rw [List.length_map]
    · intro x
      by_cases hpx : (x.user == u && x.category == cat &&
          x.month_year == bucket) = true <;> simp [hpx]
  · rw [if_neg hany, List.filter_append, List.length_append]
    exact Nat.le_add_right _ _


/-- Every row of an upsert result is an original row or carries the
submitted amount. -/
theorem budgetUpsert_mem (bs : List Budget) (u cat bucket : String) (a : ℚ)
    (r : Budget) (h : r ∈ budgetUpsert bs u cat bucket a) :
    r ∈ bs ∨ r.allocated_amount = a := by
  unfold budgetUpsert at h
  by_cases hany : (bs.any fun b =>
      b.user == u && b.category == cat && b.month_year == bucket) = true
  · rw [if_pos hany] at h
    obtain ⟨x, hx, hfx⟩ := List.mem_map.mp h
    by_cases hpx : (x.user == u && x.category == cat &&
        x.month_year == bucket) = true
    · rw [if_pos hpx] at hfx
      right
      rw [← hfx]
    · rw [if_neg hpx] at hfx
      left
      rw [← hfx]
      exact hx
  · rw [if_neg hany] at h
    rcases List.mem_append.mp h with h | h
    · left; exact h
    · right
      have hr : r = ({ user := u, category := cat, allocated_amount := a, month_year := bucket } : Budget) := by
        simpa using h
      rw [hr]

/-! ## Lemmas about the budget-management loop -/

/-- A loop step for a different category (or bucket or owner) leaves the
rows of a key unchanged. -/
theorem budgetStep_rowsFor_ne (u bucket : String) (post : PostAmounts)
    (bs : List Budget) (x : String) (u' c b' : String)
    (hk : ¬(u' = u ∧ c = x ∧ b' = bucket)) :
    budgetRowsFor (budgetStep u bucket post bs x) u' c b' =
      budgetRowsFor bs u' c b' := by
  unfold budgetStep
  cases hp : post x with
  | none => rfl
  | some a =>
    show budgetRowsFor (if 0 < a then budgetUpsert bs u x bucket a else bs)
      u' c b' = budgetRowsFor bs u' c b'
    by_cases ha : 0 < a
    · rw [if_pos ha]
      exact budgetUpsert_rowsFor_ne bs u x bucket a u' c b' hk
    · rw [if_neg ha]

/-- A loop step for a category whose submission is absent, empty, zero or
negative does nothing at all. -/
theorem budgetStep_skip (u bucket : String) (post : PostAmounts)
    (bs : List Budget) (c : String)
    (hp : post c = none ∨ ∃ a, post c = some a ∧ a ≤ 0) :
    budgetStep u bucket post bs c = bs := by
  unfold budgetStep
  rcases hp with hp | ⟨a, hpa, ha⟩
  · rw [hp]
  · rw [hpa]
    show (if 0 < a then budgetUpsert bs u c bucket a else bs) = bs
    rw [if_neg (not_lt.mpr ha)]

/-- A loop step keeps every key's row count at most one. -/
theorem budgetStep_count_le (u bucket : String) (post : PostAmounts)
    (bs : List Budget) (x : String) (u' c b' : String)
    (h : (budgetRowsFor bs u' c b').length ≤ 1) :
    (budgetRowsFor (budgetStep u bucket post bs x) u' c b').length ≤ 1 := by
  unfold budgetStep
  cases hp : post x with
  | none => exact h
  | some a =>
    show (budgetRowsFor (if 0 < a then budgetUpsert bs u x bucket a else bs)
      u' c b').length ≤ 1
    by_cases ha : 0 < a
    · rw [if_pos ha]
      exact budgetUpsert_count_le bs u x bucket a u' c b' h
    · rw [if_neg ha]
      exact h

/-- A loop step never lowers a key's row count. -/
theorem budgetStep_count_ge (u bucket : String) (post : PostAmounts)
    (bs : List Budget) (x : String) (u' c b' : String) :
    (budgetRowsFor bs u' c b').length ≤
      (budgetRowsFor (budgetStep u bucket post bs x) u' c b').length := by
  unfold budgetStep
  cases hp : post x with
  | none => exact Nat.le_refl _
  | some a =>
    show (budgetRowsFor bs u' c b').length ≤
      (budgetRowsFor (if 0 < a then budgetUpsert bs u x bucket a else bs)
        u' c b').length
    by_cases ha : 0 < a
    · rw [if_pos ha]
      exact budgetUpsert_count_ge bs u x bucket a u' c b'
    · rw [if_neg ha]

/-- Every row after a loop step is an original row or strictly positive. -/
theorem budgetStep_mem (u bucket : String) (post : PostAmounts)
    (bs : List Budget) (x : String) (r : Budget)
    (h : r ∈ budgetStep u bucket post bs x) :
    r ∈ bs ∨ 0 < r.allocated_amount := by
  unfold budgetStep at h
  cases hp : post x with
  | none =>
    rw [hp] at h
    exact Or.inl h
  | some a =>
    rw [hp] at h
    have h' : r ∈ (if 0 < a then budgetUpsert bs u x bucket a else bs) := h
    by_cases ha : 0 < a
    · rw [if_pos ha] at h'
      rcases budgetUpsert_mem bs u x bucket a r h' with hm | hm
      · exact Or.inl hm
      · exact Or.inr (hm ▸ ha)
    · rw [if_neg ha] at h'
      exact Or.inl h'

/-- The loop keeps every key's row count at most one. -/
theorem fold_budgetStep_count_le (u bucket : String) (post : PostAmounts) :
    ∀ (l : List String) (bs : List Budget) (u' c b' : String),
    (budgetRowsFor bs u' c b').length ≤ 1 →
    (budgetRowsFor (l.foldl (budgetStep u bucket post) bs) u' c b').length ≤ 1 := by
  intro l
  induction l with
  | nil => intro bs u' c b' h; exact h
  | cons x xs ih =>
    intro bs u' c b' h
    rw [List.foldl_cons]
    exact ih (budgetStep u bucket post bs x) u' c b'
      (budgetStep_count_le u bucket post bs x u' c b' h)

/-- The loop never lowers a key's row count. -/
theorem fold_budgetStep_count_ge (u bucket : String) (post : PostAmounts) :
    ∀ (l : List String) (bs : List Budget) (u' c b' : String),
    (budgetRowsFor bs u' c b').length ≤
      (budgetRowsFor (l.foldl (budgetStep u bucket post) bs) u' c b').length := by
  intro l
  induction l with
  | nil => intro bs u' c b'; exact Nat.le_refl _
  | cons x xs ih =>
    intro bs u' c b'
    rw [List.foldl_cons]
    exact Nat.le_trans (budgetStep_count_ge u bucket post bs x u' c b')
      (ih (budgetStep u bucket post bs x) u' c b')

/-- Every row after the loop is an original row or strictly positive. -/
theorem fold_budgetStep_mem (u bucket : String) (post : PostAmounts) :
    ∀ (l : List String) (bs : List Budget) (r : Budget),
    r ∈ l.foldl (budgetStep u bucket post) bs →
    r ∈ bs ∨ 0 < r.allocated_amount := by
  intro l
  induction l with
  | nil => intro bs r h; exact Or.inl h
  | cons x xs ih =>
    intro bs r h
    rw [List.foldl_cons] at h
    rcases ih (budgetStep u bucket post bs x) r h with h | h
    · exact budgetStep_mem u bucket post bs x r h
    · exact Or.inr h

/-- A category with a skipped submission keeps its key's rows through the
whole loop. -/
theorem fold_budgetStep_skipKey (u bucket : String) (post : PostAmounts)
    (c : String) (hp : post c = none ∨ ∃ a, post c = some a ∧ a ≤ 0) :
    ∀ (l : List String) (bs : List Budget),
    budgetRowsFor (l.foldl (budgetStep u bucket post) bs) u c bucket =
      budgetRowsFor bs u c bucket := by
  intro l
  induction l with
  | nil => intro bs; rfl
  | cons x xs ih =>
    intro bs
    rw [List.foldl_cons, ih]
    by_cases hxc : x = c
    · subst hxc
      rw [budgetStep_skip u bucket post bs x hp]
    · exact budgetStep_rowsFor_ne u bucket post bs x u c bucket
        (fun hk => hxc hk.2.1.symm)

/-- The loop over categories not containing `c` keeps `c`'s key rows. -/
theorem fold_budgetStep_frame (u bucket : String) (post : PostAmounts)
    (c : String) : ∀ (l : List String), c ∉ l → ∀ (bs : List Budget),
    budgetRowsFor (l.foldl (budgetStep u bucket post) bs) u c bucket =
      budgetRowsFor bs u c bucket := by
  intro l
  induction l with
  | nil => intro _ bs; rfl
  | cons x xs ih =>
    intro hc bs
    rw [List.foldl_cons, ih (fun hx => hc (List.mem_cons_of_mem x hx))]
    exact budgetStep_rowsFor_ne u bucket post bs x u c bucket
      (fun hk => hc (hk.2.1 ▸ List.mem_cons_self x xs))

/-- After the loop, a positively-submitted category in a duplicate-free
category list ends with exactly the single upserted row for its key. -/
theorem fold_budgetStep_main (u bucket : String) (post : PostAmounts)
    (c : String) (a : ℚ) (hpost : post c = some a) (ha : 0 < a) :
    ∀ (l : List String), l.Nodup → c ∈ l → ∀ (bs : List Budget),
    (budgetRowsFor bs u c bucket).length ≤ 1 →
    budgetRowsFor (l.foldl (budgetStep u bucket post) bs) u c bucket =
      [{ user := u, category := c, allocated_amount := a,
         month_year := bucket }] := by
  intro l
  induction l with
  | nil => intro _ hc; exact absurd hc (List.not_mem_nil c)
  | cons x xs ih =>
    intro hnd hc bs hwf
    rw [List.foldl_cons]
    by_cases hxc : x = c
    · subst hxc
      have hxs : x ∉ xs := (List.nodup_cons.mp hnd).1
      rw [fold_budgetStep_frame u bucket post x xs hxs]
      have hstep : budgetStep u bucket post bs x = budgetUpsert bs u x bucket a := by
        unfold budgetStep
        rw [hpost]
        show (if 0 < a then budgetUpsert bs u x bucket a else bs) =
          budgetUpsert bs u x bucket a
        rw [if_pos ha]
      rw [hstep]
      exact budgetUpsert_rowsFor_self bs u x bucket a hwf
    · have hxs : c ∈ xs := by
        rcases List.mem_cons.mp hc with h | h
        · exact absurd h.symm hxc
        · exact h
      have hpres : budgetRowsFor (budgetStep u bucket post bs x) u c bucket =
          budgetRowsFor bs u c bucket :=
        budgetStep_rowsFor_ne u bucket post bs x u c bucket
          (fun hk => hxc hk.2.1.symm)
      exact ih (List.nodup_cons.mp hnd).2 hxs (budgetStep u bucket post bs x)
        (by rw [hpres]; exact hwf)

/-! ## C9 -/

/-- C9: the budget-management POST preserves the at-most-one-row invariant
for every `(owner, category, bucket)` key, and a positive submission for a
category leaves exactly one row for that category and the current bucket —
the existing row updated in place (or one freshly created row), never a
second row. -/
theorem C9_budget_allocation_unique :
    (∀ (u bucket : String) (post : PostAmounts) (bs : List Budget),
      (∀ u' c b', (budgetRowsFor bs u' c b').length ≤ 1) →
      ∀ u' c b',
        (budgetRowsFor (budget_management_post u bucket post bs) u' c b').length
          ≤ 1) ∧
    (∀ (u bucket : String) (post : PostAmounts) (bs : List Budget)
        (c : String) (a : ℚ),
      c ∈ categories → post c = some a → 0 < a →
      (budgetRowsFor bs u c bucket).length ≤ 1 →
      budgetRowsFor (budget_management_post u bucket post bs) u c bucket =
        [{ user := u, category := c, allocated_amount := a,
           month_year := bucket }]) := by
  constructor
  · intro u bucket post bs hwf u' c b'
    exact fold_budgetStep_count_le u bucket post categories bs u' c b'
      (hwf u' c b')
  · intro u bucket post bs c a hc hpost ha hwf
    exact fold_budgetStep_main u bucket post c a hpost ha categories
      (by decide) hc bs hwf

/-- The witness table for C9 and C10: one existing 100.00 `Food` budget. -/
def c9bs : List Budget :=
  [{ user := "alice", category := "Food", allocated_amount := 100,
     month_year := "2024-06" }]

/-- The C9 witness submission: 250.00 for `Food`, nothing else. -/
def c9post : PostAmounts :=
  fun c => if c == "Food" then some 250 else none

/-- Witness for C9: resubmitting `Food` as 250.00 over an existing 100.00
row leaves the single updated row, not a duplicate. -/
theorem C9_budget_allocation_unique_witness :
    budgetRowsFor (budget_management_post "alice" "2024-06" c9post c9bs)
      "alice" "Food" "2024-06" =
      [{ user := "alice", category := "Food", allocated_amount := 250,
         month_year := "2024-06" }] :=
  C9_budget_allocation_unique.2 "alice" "2024-06" c9post c9bs "Food" 250
    (by decide) rfl (by norm_num) (by decide)

/-! ## C10 -/

/-- C10: a category whose submission is absent/empty (`none`) or parses to
a non-positive amount is skipped entirely — the rows of its
`(owner, category, current-bucket)` key are exactly what they were, so an
existing row keeps its previous allocation; the operation never deletes a
row of any key; and every row it leaves behind is either an original row
or carries a strictly positive submitted amount. -/
theorem C10_nonpositive_skipped :
    (∀ (u bucket : String) (post : PostAmounts) (bs : List Budget)
        (c : String),
      (post c = none ∨ ∃ a, post c = some a ∧ a ≤ 0) →
      budgetRowsFor (budget_management_post u bucket post bs) u c bucket =
        budgetRowsFor bs u c bucket) ∧
    (∀ (u bucket : String) (post : PostAmounts) (bs : List Budget)
        (u' c b' : String),
      (budgetRowsFor bs u' c b').length ≤
        (budgetRowsFor (budget_management_post u bucket post bs) u' c b').length) ∧
    (∀ (u bucket : String) (post : PostAmounts) (bs : List Budget) (r : Budget),
      r ∈ budget_management_post u bucket post bs →
      r ∈ bs ∨ 0 < r.allocated_amount) := by
  refine ⟨?_, ?_, ?_⟩
  · intro u bucket post bs c hp
    exact fold_budgetStep_skipKey u bucket post c hp categories bs
  · intro u bucket post bs u' c b'
    exact fold_budgetStep_count_ge u bucket post categories bs u' c b'
  · intro u bucket post bs r h
    exact fold_budgetStep_mem u bucket post categories bs r h

/-- The C10 witness submission: −5 for `Food`, nothing else. -/
def c10post : PostAmounts :=
  fun c => if c == "Food" then some (-5) else none

/-- Witness for C10: submitting −5 for `Food` leaves the existing 100.00
row exactly as it was. -/
theorem C10_nonpositive_skipped_witness :
    budgetRowsFor (budget_management_post "alice" "2024-06" c10post c9bs)
      "alice" "Food" "2024-06" =
      budgetRowsFor c9bs "alice" "Food" "2024-06" :=
  C10_nonpositive_skipped.1 "alice" "2024-06" c10post c9bs "Food"
    (Or.inr ⟨-5, rfl, by norm_num⟩)
